import Mathlib

/-!
Verification development for the OpenCode supervisor subsystem of the
bloxbot application (file src/src-tauri/src/opencode.rs).

The Rust code is shallowly embedded as pure Lean functions.  External
effects (TCP binds, HTTP requests, the file system, the OS spawn call,
process exit events) are supplied as explicit oracle parameters, so that
every function of the source becomes a deterministic function of the
supervisor state together with the outcome of its external calls.
Strings are modelled as Lean strings; the Rust string helpers used by the
source (trim_start, trim_end, starts_with, contains) are re-implemented
on the character lists underlying Lean strings, which agrees with the
byte-level Rust semantics on the ASCII data involved.
-/

/-! ## Character-list string primitives (Rust str helpers) -/

/-- Model of Rust slice method is_prefix-style test: isPrefixList p l is
true when the list p is an initial segment of l. -/
def isPrefixList : List Char → List Char → Bool
  | [], _ => true
  | _ :: _, [] => false
  | a :: asx, b :: bs => a == b && isPrefixList asx bs

/-- Model of Rust str contains for string patterns: true when p occurs as
a contiguous sublist of l. -/
def isSubList (p : List Char) : List Char → Bool
  | [] => p.isEmpty
  | a :: l => isPrefixList p (a :: l) || isSubList p l

/-- Model of Rust str trim_start (leading Unicode whitespace removal; the
log lines involved are ASCII, where Char.isWhitespace agrees). -/
def trimStartList (l : List Char) : List Char := l.dropWhile Char.isWhitespace

/-- Model of Rust str trim_end (trailing whitespace removal). -/
def trimEndList (l : List Char) : List Char :=
  (l.reverse.dropWhile Char.isWhitespace).reverse

/-- String wrapper for trimStartList. -/
def trimStartStr (s : String) : String := ⟨trimStartList s.data⟩

/-- String wrapper for trimEndList. -/
def trimEndStr (s : String) : String := ⟨trimEndList s.data⟩

/-- Model of Rust str starts_with on string patterns. -/
def strStartsWith (s p : String) : Bool := isPrefixList p.data s.data

/-- Model of Rust str contains on string patterns. -/
def strContainsSub (s p : String) : Bool := isSubList p.data s.data

/-! ## Log classification (parse_sidecar_level, NOISY_PATTERNS,
is_noisy_sidecar_line, and the per-line behaviour of process_events) -/

/-- Levels of the log crate used by the source (log::Level). -/
inductive LogLevel where
  | error
  | warn
  | info
  | debug
  | trace
deriving DecidableEq, Repr

/-- Source constant NOISY_PATTERNS (opencode.rs lines 643-651): sidecar
lines matching these substrings are high-frequency noise. -/
def NOISY_PATTERNS : List String :=
  [ "path=/mcp request"
  , "path=/global/health request"
  , "service=server method="
  , "service=server status="
  , "service=bus type="
  , "service=tool.registry"
  , "service=permission" ]

/-- Source function is_noisy_sidecar_line (opencode.rs lines 674-676). -/
def is_noisy_sidecar_line (line : String) : Bool :=
  NOISY_PATTERNS.any (fun p => strContainsSub line p)

/-- Source function parse_sidecar_level (opencode.rs lines 656-670):
extract the sidecar log level from the start of a line, defaulting to
warn for unstructured lines. -/
def parse_sidecar_level (line : String) : LogLevel :=
  let trimmed := trimStartStr line
  if strStartsWith trimmed "ERROR" then .error
  else if strStartsWith trimmed "WARN" then .warn
  else if strStartsWith trimmed "DEBUG" then .debug
  else if strStartsWith trimmed "INFO" then .info
  else .warn

/-- A single forwarding decision of the event multiplexer: either a log
call with a target, level and message, or dropping the line. -/
inductive LogAction where
  | log (target : String) (level : LogLevel) (message : String)
  | skip
deriving DecidableEq, Repr

/-- Behaviour of process_events on one CommandEvent::Stdout line
(opencode.rs lines 686-694): noisy lines go to trace, all other stdout
lines go to info. -/
def stdout_line_action (line : String) : LogAction :=
  let trimmed := trimEndStr line
  if is_noisy_sidecar_line trimmed then .log "opencode::stdout" .trace trimmed
  else .log "opencode::stdout" .info trimmed

/-- Behaviour of process_events on one CommandEvent::Stderr line
(opencode.rs lines 695-711): empty lines are dropped, noisy lines go to
trace, all other lines are logged at the parsed sidecar level (the
catch-all match arm of the source maps any other level to debug). -/
def stderr_line_action (line : String) : LogAction :=
  let trimmed := trimEndStr line
  if trimmed.data.isEmpty then .skip
  else if is_noisy_sidecar_line trimmed then .log "opencode::stderr" .trace trimmed
  else
    .log "opencode::stderr"
      (match parse_sidecar_level trimmed with
        | .error => .error
        | .warn => .warn
        | .info => .info
        | .debug => .debug
        | .trace => .debug)
      trimmed

/-- Severity assignment as worded by the specification for claim C3: the
severity named by a token at the start of the line, in the order the spec
lists the tokens (ERROR/WARN/INFO/DEBUG), defaulting to WARN.  This
definition follows the words of the spec and is compared against the
source function parse_sidecar_level. -/
def spec_token_severity (line : String) : LogLevel :=
  let t := trimStartStr line
  if strStartsWith t "ERROR" then .error
  else if strStartsWith t "WARN" then .warn
  else if strStartsWith t "INFO" then .info
  else if strStartsWith t "DEBUG" then .debug
  else .warn

/-! ## Port allocation (find_available_port) -/

/-- Source constant OC_PORT_START (59200). -/
def OC_PORT_START : Nat := 59200

/-- Source constant MCP_PORT_START (59210). -/
def MCP_PORT_START : Nat := 59210

/-- Source constant PORT_RANGE (10). -/
def PORT_RANGE : Nat := 10

/-- The Rust for-loop of find_available_port: try n consecutive ports
starting at p, returning the first whose loopback bind (the oracle bind)
succeeds. -/
def scan_ports (bind : Nat → Bool) (p : Nat) : Nat → Option Nat
  | 0 => none
  | n + 1 => if bind p then some p else scan_ports bind (p + 1) n

/-- Source function find_available_port (opencode.rs lines 110-122).
Ports are u16; start.saturating_add(PORT_RANGE) is modelled as
min (start + PORT_RANGE) 65535, and the loop start..end tries
end - start ports.  When no probed port binds, start is returned as the
explicit degraded fallback. -/
def find_available_port (bind : Nat → Bool) (start : Nat) : Nat :=
  match scan_ports bind start (min (start + PORT_RANGE) 65535 - start) with
  | some p => p
  | none => start

/-! ## Supervisor state (OpenCodeStatus, OpenCodeState, StatusPayload) -/

/-- Source enum OpenCodeStatus (opencode.rs lines 46-52). -/
inductive OpenCodeStatus where
  | Stopped
  | Starting
  | Running
  | Error (msg : String)
deriving DecidableEq, Repr

/-- Source struct StatusPayload (opencode.rs lines 55-59): the payload of
an opencode-status-changed event. -/
structure StatusPayload where
  status : OpenCodeStatus
  port : Nat
deriving DecidableEq, Repr

/-- Source struct OpenCodeState (opencode.rs lines 63-68).  The ports are
u16 values modelled as Nat; the CommandChild handle carries no data the
claims depend on, so the child field is Option Unit, present exactly when
the Rust field is Some. -/
structure OpenCodeState where
  status : OpenCodeStatus
  port : Nat
  mcp_port : Nat
  child : Option Unit
deriving DecidableEq, Repr

/-- Source impl Default for OpenCodeState (opencode.rs lines 70-79). -/
def initialState : OpenCodeState :=
  { status := .Stopped, port := 0, mcp_port := 0, child := none }

/-- Guard predicate of start_opencode_server (opencode.rs lines 226-229):
matches current.status against Running or Starting. -/
def isActive : OpenCodeStatus → Bool
  | .Running => true
  | .Starting => true
  | _ => false

/-! ## Exit handling (handle_process_exit) -/

/-- The user-facing message built by handle_process_exit (opencode.rs
lines 747-753) for a non-clean exit, from the optional exit code and the
optional terminating signal. -/
def exit_user_msg (code : Option Int) (signal : Option Int) : String :=
  match code with
  | some c => "The server exited unexpectedly (code " ++ (toString c ++ ").")
  | none =>
    match signal with
    | some sig => "The server was terminated by signal " ++ (toString sig ++ ".")
    | none => "The server stopped unexpectedly."

/-- Source function handle_process_exit (opencode.rs lines 724-756): the
child handle is cleared unconditionally; a Some(0) exit code yields
Stopped, anything else yields Error with the user message; in both cases
a status event carrying the (unchanged) primary port is emitted. -/
def handle_process_exit (s : OpenCodeState) (code : Option Int) (signal : Option Int) :
    OpenCodeState × StatusPayload :=
  let s1 := { s with child := none }
  if code = some 0 then
    let s2 := { s1 with status := .Stopped }
    (s2, ⟨.Stopped, s2.port⟩)
  else
    let msg := exit_user_msg code signal
    let s2 := { s1 with status := .Error msg }
    (s2, ⟨.Error msg, s2.port⟩)

/-! ## Shutdown coordinator (stop_all) -/

/-- Result of a stop_all call: the final state, the emitted status
events, and whether an HTTP shutdown request to the MCP launcher control
port was attempted. -/
structure StopOut where
  state : OpenCodeState
  emits : List StatusPayload
  mcpShutdownRequested : Bool
deriving DecidableEq, Repr

/-- Source function stop_all (opencode.rs lines 762-790).  When no child
handle is present and the mcp port is 0 it returns at once without
touching the state.  Otherwise it requests a graceful MCP shutdown when
mcp_port is positive (the HTTP outcome, the oracle parameter, is ignored
by the source), kills and clears the child, sets status Stopped, zeroes
both ports and emits one Stopped event with port 0. -/
def stop_all (s : OpenCodeState) (_mcpShutdownOk : Bool) : StopOut :=
  let mcp_port := s.mcp_port
  let has_child := s.child.isSome
  if !has_child && mcp_port == 0 then
    ⟨s, [], false⟩
  else
    let requested := decide (0 < mcp_port)
    let s2 := { s with child := none, status := .Stopped, port := 0, mcp_port := 0 }
    ⟨s2, [⟨.Stopped, 0⟩], requested⟩

/-! ## Startup (do_start, start_opencode_server, health polling)

The start path performs a sequence of fallible external calls.  Each call
is an oracle field of StartEnv holding the outcome the environment
produces for it.  The exit of the spawned process is delivered by the
event-handler thread; the source consumes it at the per-iteration check
of the health loop, which is where the model delivers it: exitAt gives
the loop iteration before whose check the Terminated event lands,
together with the exit code and signal of the payload. -/

/-- Oracle outcomes for one execution of start_opencode_server. -/
structure StartEnv where
  /-- crate paths bundled_nodejs_bin_dir (opencode.rs line 234). -/
  nodejs : Except String Unit
  /-- Loopback TCP bind probe used by find_available_port. -/
  bind : Nat → Bool
  /-- crate paths bundled_launcher_dir (line 284). -/
  launcher : Except String Unit
  /-- serde_json to_string_pretty of the config (line 436). -/
  serializeCfg : Except String Unit
  /-- crate paths workspace_dir (line 441). -/
  workspace : Except String Unit
  /-- Creation of the four XDG directories, of the config directory and
  the config file write (lines 453-468); the first failing message. -/
  fsSetup : Except String Unit
  /-- crate paths sidecar_dir (line 477). -/
  sidecarDirRes : Except String Unit
  /-- Creation of the sidecar command (line 504). -/
  sidecarCmd : Except String Unit
  /-- The OS spawn call (line 528). -/
  spawn : Except String Unit
  /-- Iteration of the health loop before whose child check the process
  Terminated event is delivered, with exit code and signal; none when the
  process survives the whole loop. -/
  exitAt : Option (Nat × Option Int × Option Int)
  /-- Delivery of the Terminated event in the window between the final
  successful health poll and the Running status write (source lines
  583-593, where set_status acquires the lock with no renewed child
  check): some (code, signal) when the scheduler runs the exit handler
  in that gap.  At most one of the exitAt and lateExit deliveries can
  fire in any single run, since either one ends the loop. -/
  lateExit : Option (Option Int × Option Int)
  /-- Outcome of the health-endpoint GET of each loop iteration. -/
  health : Nat → Bool

deriving instance DecidableEq for Except

/-- Result of the health-polling phase: the start result, the final
state, emitted events, the number of health-endpoint requests actually
sent, and the sequence of shared-state snapshots at each lock release. -/
structure HealthOut where
  result : Except String Nat
  state : OpenCodeState
  emits : List StatusPayload
  polls : Nat
  trace : List OpenCodeState
deriving DecidableEq, Repr

/-- Delivery of the pending Terminated event at loop point i: when the
event lands here, the event handler runs handle_process_exit; otherwise
the state is untouched. -/
def deliverExit (s : OpenCodeState) (ea : Option (Nat × Option Int × Option Int))
    (i : Nat) : OpenCodeState × List StatusPayload :=
  match ea with
  | some (k, c, g) =>
    if k = i then
      let r := handle_process_exit s c g
      (r.1, [r.2])
    else (s, [])
  | none => (s, [])

/-- Shared ending shape of the health wait (source lines 565-580 and
596-608): when the state already carries an Error status, return that
recorded error untouched; otherwise transition to Error with the given
message and emit the corresponding event. -/
def health_abort (s1 : OpenCodeState) (pre : List StatusPayload) (msg : String) : HealthOut :=
  match s1.status with
  | .Error m => ⟨.error m, s1, pre, 0, [s1]⟩
  | _ =>
    let s2 := { s1 with status := .Error msg }
    ⟨.error msg, s2, pre ++ [⟨.Error msg, s1.port⟩], 0, [s1, s2]⟩

/-- Healthy ending of the health wait (source lines 583-593): after the
successful poll breaks the loop, set_status(Running) re-acquires the
lock with no renewed child check, so the exit handler may run in between
— the le oracle gives that scheduling choice together with the exit code
and signal.  When it fires, the handler clears the child and writes its
own status, and the Running write then overwrites the status while the
handle stays cleared.  Either way the call returns Ok port. -/
def health_running (s1 : OpenCodeState) (pre : List StatusPayload) (port : Nat)
    (le : Option (Option Int × Option Int)) : HealthOut :=
  match le with
  | some (c, g) =>
    let r := handle_process_exit s1 c g
    let s2 := { r.1 with status := .Running }
    ⟨.ok port, s2, pre ++ [r.2, ⟨.Running, r.1.port⟩], 1, [s1, r.1, s2]⟩
  | none =>
    let s2 := { s1 with status := .Running }
    ⟨.ok port, s2, pre ++ [⟨.Running, s1.port⟩], 1, [s1, s2]⟩

/-- The health-wait phase of do_start (opencode.rs lines 559-609): up to
15 iterations of sleep, child-gone check, health poll; then the healthy
and the timed-out endings.  fuel counts the remaining iterations (15 at
the top call), i the current iteration index for the oracles. -/
def health_wait (fuel i : Nat) (s : OpenCodeState) (port : Nat)
    (ea : Option (Nat × Option Int × Option Int))
    (le : Option (Option Int × Option Int)) (hl : Nat → Bool) : HealthOut :=
  match fuel with
  | 0 =>
    let d := deliverExit s ea i
    health_abort d.1 d.2 "OpenCode server started but health check timed out"
  | fuel + 1 =>
    let d := deliverExit s ea i
    let s1 := d.1
    if s1.child = none then
      health_abort s1 d.2 "OpenCode process exited before becoming healthy"
    else if hl i then
      health_running s1 d.2 port le
    else
      let rest := health_wait fuel (i + 1) s1 port ea le hl
      ⟨rest.result, rest.state, d.2 ++ rest.emits, rest.polls + 1, s1 :: rest.trace⟩

/-- Result of one start_opencode_server call: the returned value, the
final state, the emitted events, how many processes were spawned, how
many health polls were sent, and the shared-state snapshots at the lock
releases of the call, in order. -/
structure StartOut where
  result : Except String Nat
  state : OpenCodeState
  emits : List StatusPayload
  spawns : Nat
  polls : Nat
  trace : List OpenCodeState
deriving DecidableEq, Repr

/-- Source function do_start (opencode.rs lines 260-610): reap stale
processes (no supervisor-state effect), allocate the two ports and store
them, resolve the MCP launcher, serialize and persist the config inside
the isolated tree, resolve the sidecar directory, build the command,
spawn, store the child handle, then run the health wait.  The derived
control port (mcp_port wrapping_add 10) only feeds the config contents
and is not part of the supervisor state.

The chain of fallible pre-spawn steps of do_start (source lines 284-533,
each propagated with the question-mark operator or map_err, none touching
the supervisor state) is grouped here as one Except computation: launcher
resolution, config serialization, workspace resolution, isolated
directory creation and config write, sidecar directory resolution,
sidecar command creation, and the spawn itself, with the message wrappers
the source applies. -/
def pre_spawn_checks (env : StartEnv) : Except String Unit :=
  match env.launcher with
  | .error e => .error e
  | .ok _ =>
  match env.serializeCfg with
  | .error e => .error ("Failed to serialize OpenCode config: " ++ e)
  | .ok _ =>
  match env.workspace with
  | .error e => .error e
  | .ok _ =>
  match env.fsSetup with
  | .error e => .error e
  | .ok _ =>
  match env.sidecarDirRes with
  | .error e => .error e
  | .ok _ =>
  match env.sidecarCmd with
  | .error e => .error ("Failed to create sidecar command: " ++ e)
  | .ok _ =>
  match env.spawn with
  | .error e => .error ("Failed to start OpenCode server: " ++ e)
  | .ok _ => .ok ()

/-- Body of do_start around the fallible chain: allocate and store the
two ports, run the pre-spawn steps, store the child handle on a
successful spawn and hand over to the health wait. -/
def do_start (s : OpenCodeState) (env : StartEnv) : StartOut :=
  let port := find_available_port env.bind OC_PORT_START
  let mcp_port := find_available_port env.bind MCP_PORT_START
  let s1 := { s with port := port, mcp_port := mcp_port }
  match pre_spawn_checks env with
  | .error e => ⟨.error e, s1, [], 0, 0, [s1]⟩
  | .ok _ =>
    let s2 := { s1 with child := some () }
    let h := health_wait 15 0 s2 port env.exitAt env.lateExit env.health
    ⟨h.result, h.state, h.emits, 1, h.polls, s1 :: s2 :: h.trace⟩

/-- Source function start_opencode_server (opencode.rs lines 219-256):
the double-start guard returns the stored port at once; a Node.js
resolution failure sets Error before the Starting transition; otherwise
status moves to Starting (event carries the old port) and do_start runs,
with any failure translated into a final Error transition. -/
def start_opencode_server (s : OpenCodeState) (env : StartEnv) : StartOut :=
  if isActive s.status then ⟨.ok s.port, s, [], 0, 0, [s]⟩
  else
    match env.nodejs with
    | .error e =>
      let s1 := { s with status := .Error e }
      ⟨.error e, s1, [⟨.Error e, s.port⟩], 0, 0, [s1]⟩
    | .ok _ =>
      let sS := { s with status := .Starting }
      let o := do_start sS env
      match o.result with
      | .ok p => ⟨.ok p, o.state, ⟨.Starting, s.port⟩ :: o.emits, o.spawns, o.polls, sS :: o.trace⟩
      | .error e =>
        let sE := { o.state with status := .Error e }
        ⟨.error e, sE, (⟨.Starting, s.port⟩ :: o.emits) ++ [⟨.Error e, o.state.port⟩],
          o.spawns, o.polls, (sS :: o.trace) ++ [sE]⟩

/-! ## Combined status poller (poll_studio_status) -/

/-- Outcome of one HTTP call as the source observes it: a transport
error, a response with a non-success status (carrying the display form of
the status), or a successful response with a decoded body. -/
inductive HttpOutcome (α : Type) where
  | netErr (msg : String)
  | httpErr (statusText : String)
  | ok (body : α)
deriving DecidableEq, Repr

/-- Decoded roblox-studio entry of the OpenCode /mcp response body: the
optional status string and the optional error string. -/
structure McpEntry where
  statusStr : Option String
  errorStr : Option String
deriving DecidableEq, Repr

/-- Source struct StudioStatusResult (opencode.rs lines 954-958). -/
structure StudioStatusResult where
  status : String
  error : Option String
deriving DecidableEq, Repr

/-- Oracle outcomes for one poll_studio_status call.  For the /mcp call
the body is Option (Option McpEntry): the outer layer is JSON decoding
success, the inner the presence of the roblox-studio key.  For the MCP
health call the body is the optional pluginConnected boolean (absent
field or undecodable body collapse to none, as the source defaults). -/
structure PollEnv where
  workspace : Except String Unit
  mcpResp : HttpOutcome (Option (Option McpEntry))
  healthResp : HttpOutcome (Option Bool)

/-- Step 2 of poll_studio_status (opencode.rs lines 912-951): the MCP
bridge health endpoint, reached only when step 1 reported connected. -/
def poll_mcp_health (env : PollEnv) : Except String StudioStatusResult × Nat :=
  match env.healthResp with
  | .ok body =>
    let plugin_connected := body.getD false
    (.ok ⟨if plugin_connected then "connected" else "disconnected", none⟩, 2)
  | .httpErr st => (.ok ⟨"failed", some ("HTTP " ++ st)⟩, 2)
  | .netErr _ => (.ok ⟨"failed", none⟩, 2)

/-- Source function poll_studio_status (opencode.rs lines 824-952): when
the supervisor status is not Running the result is unknown with no error
and no HTTP request is sent (the second component counts the requests);
otherwise the OpenCode /mcp endpoint is consulted and, only on a
connected answer, the MCP bridge health endpoint. -/
def poll_studio_status (s : OpenCodeState) (env : PollEnv) :
    Except String StudioStatusResult × Nat :=
  if s.status = .Running then
    match env.workspace with
    | .error e => (.error e, 0)
    | .ok _ =>
      match env.mcpResp with
      | .ok (some (some rs)) =>
        let status_str := rs.statusStr.getD "unknown"
        if status_str = "failed" then (.ok ⟨"failed", rs.errorStr⟩, 1)
        else if status_str = "disabled" then (.ok ⟨"disabled", none⟩, 1)
        else if status_str = "needs_auth" ∨ status_str = "needs_client_registration" then
          (.ok ⟨"needs_auth", none⟩, 1)
        else if status_str = "connected" then poll_mcp_health env
        else (.ok ⟨"unknown", none⟩, 1)
      | _ => (.ok ⟨"unknown", none⟩, 1)
  else (.ok ⟨"unknown", none⟩, 0)

/-! ## Reachable supervisor states

Reachability at the granularity the source realizes: operations on the
shared state interleave at the mutex lock boundaries recorded in the
traces above; the exit event of a spawned process is delivered at every
lock boundary where the handler thread can acquire the state mutex —
before each per-iteration child check of the health loop (the exitAt
oracle), in the gap between the final successful health poll and the
Running status write (the lateExit oracle), and at any operation
boundary (the exit step, deliberately unguarded so the model
over-approximates handler scheduling, including a Terminated event
arriving after stop_all killed the process).  Per the concurrency
contract of the subsystem a start runs to completion before a stop or a
further start is meaningful, and every intermediate lock-release
snapshot of a running start is observable by the query commands. -/

inductive Reach : OpenCodeState → Prop where
  | init : Reach initialState
  | start_step (s : OpenCodeState) (env : StartEnv) (t : OpenCodeState) :
      Reach s → t ∈ (start_opencode_server s env).trace → Reach t
  | exit_step (s : OpenCodeState) (c g : Option Int) :
      Reach s → Reach (handle_process_exit s c g).1
  | stop_step (s : OpenCodeState) (b : Bool) :
      Reach s → Reach (stop_all s b).state

/-- Reachability restricted to the runs in which the exit handler never
fires inside the narrow window between the final successful health poll
and the Running status write: every start step has no late exit
delivery, while all other deliveries (before any child check, and at any
operation boundary) remain available.  This is the carve-out under which
a Running status still guarantees a present handle. -/
inductive ReachNoLateExit : OpenCodeState → Prop where
  | init : ReachNoLateExit initialState
  | start_step (s : OpenCodeState) (env : StartEnv) (t : OpenCodeState) :
      ReachNoLateExit s → env.lateExit = none →
      t ∈ (start_opencode_server s env).trace → ReachNoLateExit t
  | exit_step (s : OpenCodeState) (c g : Option Int) :
      ReachNoLateExit s → ReachNoLateExit (handle_process_exit s c g).1
  | stop_step (s : OpenCodeState) (b : Bool) :
      ReachNoLateExit s → ReachNoLateExit (stop_all s b).state

/-- An all-success environment: every resolution step succeeds, every
port bind succeeds, the process never exits, the first health poll is
already healthy. -/
def envAllOk : StartEnv :=
  ⟨.ok (), fun _ => true, .ok (), .ok (), .ok (), .ok (), .ok (), .ok (), .ok (),
    none, none, fun _ => true⟩

/-- An environment in which the Node.js runtime resolution fails before
the Starting transition. -/
def envNodejsFail : StartEnv :=
  { envAllOk with nodejs := .error "Failed to find Node.js runtime" }

/-- An environment in which the start succeeds up to the first health
poll, and the process then dies with exit code 137 in the window between
that successful poll and the Running status write. -/
def envLateExit : StartEnv :=
  { envAllOk with lateExit := some (some 137, none) }

/-- An environment in which everything up to the spawn succeeds, the
process crashes with exit code 1 delivered before the check of loop
iteration 2, and no health poll ever succeeds. -/
def envCrash : StartEnv :=
  { envAllOk with exitAt := some (2, some 1, none), health := fun _ => false }

/-! ## Helper lemmas: list and string reasoning -/

theorem isPrefixList_iff (p : List Char) : ∀ l, isPrefixList p l = true ↔ ∃ t, l = p ++ t := by
  induction p with
  | nil => intro l; simp [isPrefixList]
  | cons a asx ih =>
    intro l
    cases l with
    | nil => simp [isPrefixList]
    | cons b bs =>
      rw [show isPrefixList (a :: asx) (b :: bs) = (a == b && isPrefixList asx bs) from rfl]
      rw [Bool.and_eq_true, beq_iff_eq, ih bs]
      constructor
      · rintro ⟨rfl, t, rfl⟩
        exact ⟨t, rfl⟩
      · rintro ⟨t, ht⟩
        injection ht with h1 h2
        exact ⟨h1.symm, t, h2⟩

theorem isSubList_iff (p : List Char) : ∀ l, isSubList p l = true ↔ ∃ a b, l = a ++ p ++ b := by
  intro l
  induction l with
  | nil =>
    rw [show isSubList p [] = p.isEmpty from rfl]
    constructor
    · intro h
      have hp : p = [] := by
        cases p with
        | nil => rfl
        | cons x xs => simp [List.isEmpty] at h
      exact ⟨[], [], by simp [hp]⟩
    · rintro ⟨a, b, hab⟩
      rcases List.append_eq_nil.mp hab.symm with ⟨hap, hb⟩
      rcases List.append_eq_nil.mp hap with ⟨ha, hp⟩
      simp [hp]
  | cons x xs ih =>
    rw [show isSubList p (x :: xs) = (isPrefixList p (x :: xs) || isSubList p xs) from rfl]
    rw [Bool.or_eq_true, ih, isPrefixList_iff]
    constructor
    · rintro (⟨t, ht⟩ | ⟨a, b, hab⟩)
      · exact ⟨[], t, by simp [ht]⟩
      · exact ⟨x :: a, b, by simp [hab]⟩
    · rintro ⟨a, b, hab⟩
      cases a with
      | nil => exact Or.inl ⟨b, by simpa using hab⟩
      | cons y ys =>
        injection hab with h1 h2
        exact Or.inr ⟨ys, b, h2⟩

theorem trimEndList_append_mid (a p b : List Char) (c : Char) (q : List Char)
    (hrev : p.reverse = c :: q) (hws : c.isWhitespace = false) :
    trimEndList (a ++ p ++ b) = a ++ p ++ trimEndList b := by
  have hp : p = q.reverse ++ [c] := by
    have h2 := congrArg List.reverse hrev
    simpa using h2
  unfold trimEndList
  rw [List.reverse_append, List.reverse_append, hrev, List.dropWhile_append]
  by_cases hb : (List.dropWhile Char.isWhitespace b.reverse).isEmpty
  · rw [if_pos hb]
    rw [show (c :: q) ++ a.reverse = c :: (q ++ a.reverse) from rfl]
    rw [List.dropWhile_cons, hws]
    rw [List.isEmpty_iff.mp hb]
    simp [hp]
  · rw [if_neg hb]
    simp [hp]

theorem noisy_pat_shape : ∀ p ∈ NOISY_PATTERNS,
    ∃ c q, p.data.reverse = c :: q ∧ c.isWhitespace = false := by
  intro p hp
  simp only [NOISY_PATTERNS, List.mem_cons, List.not_mem_nil, or_false] at hp
  rcases hp with rfl | rfl | rfl | rfl | rfl | rfl | rfl
  all_goals exact ⟨_, _, rfl, rfl⟩

theorem noisy_trimEnd (line : String) (h : is_noisy_sidecar_line line = true) :
    is_noisy_sidecar_line (trimEndStr line) = true := by
  unfold is_noisy_sidecar_line at h ⊢
  rw [List.any_eq_true] at h ⊢
  obtain ⟨p, hp, hsub⟩ := h
  refine ⟨p, hp, ?_⟩
  unfold strContainsSub at hsub ⊢
  obtain ⟨c, q, hrev, hws⟩ := noisy_pat_shape p hp
  rw [isSubList_iff] at hsub ⊢
  obtain ⟨a, b, hab⟩ := hsub
  refine ⟨a, trimEndList b, ?_⟩
  show trimEndList line.data = _
  rw [hab, trimEndList_append_mid a p.data b c q hrev hws]

theorem noisy_nonempty (u : String) (h : is_noisy_sidecar_line u = true) :
    u.data.isEmpty = false := by
  unfold is_noisy_sidecar_line at h
  rw [List.any_eq_true] at h
  obtain ⟨p, hp, hsub⟩ := h
  obtain ⟨c, q, hrev, _⟩ := noisy_pat_shape p hp
  unfold strContainsSub at hsub
  rw [isSubList_iff] at hsub
  obtain ⟨a, b, hab⟩ := hsub
  have hpne : p.data ≠ [] := by
    intro he
    rw [he] at hrev
    simp at hrev
  rw [hab]
  cases hpd : p.data with
  | nil => exact absurd hpd hpne
  | cons x xs =>
    cases a with
    | nil => simp [hpd]
    | cons y ys => simp

theorem info_debug_not_both (u : String) :
    strStartsWith u "INFO" = true → strStartsWith u "DEBUG" = true → False := by
  unfold strStartsWith
  rw [show String.data "INFO" = 'I' :: String.data "NFO" from rfl]
  rw [show String.data "DEBUG" = 'D' :: String.data "EBUG" from rfl]
  cases u.data with
  | nil => intro h; simp [isPrefixList] at h
  | cons b bs =>
    intro h1 h2
    rw [show isPrefixList ('I' :: String.data "NFO") (b :: bs)
          = ('I' == b && isPrefixList (String.data "NFO") bs) from rfl,
        Bool.and_eq_true, beq_iff_eq] at h1
    rw [show isPrefixList ('D' :: String.data "EBUG") (b :: bs)
          = ('D' == b && isPrefixList (String.data "EBUG") bs) from rfl,
        Bool.and_eq_true, beq_iff_eq] at h2
    have : ('I' : Char) = 'D' := h1.1.trans h2.1.symm
    simp at this

theorem parse_level_eq_spec (t : String) :
    (match parse_sidecar_level t with
      | LogLevel.error => LogLevel.error
      | .warn => .warn
      | .info => .info
      | .debug => .debug
      | .trace => .debug) = spec_token_severity t := by
  unfold parse_sidecar_level spec_token_severity
  by_cases hE : strStartsWith (trimStartStr t) "ERROR"
  · simp [hE]
  · by_cases hW : strStartsWith (trimStartStr t) "WARN"
    · simp [hE, hW]
    · by_cases hD : strStartsWith (trimStartStr t) "DEBUG"
      · have hI : ¬ strStartsWith (trimStartStr t) "INFO" = true := by
          intro hI2
          exact info_debug_not_both (trimStartStr t) hI2 hD
        simp [hE, hW, hD, hI]
      · by_cases hI : strStartsWith (trimStartStr t) "INFO" <;> simp [hE, hW, hD, hI]

/-! ## Helper lemmas: port scan -/

theorem scan_ports_some (bind : Nat → Bool) :
    ∀ (n p q : Nat), scan_ports bind p n = some q →
      bind q = true ∧ p ≤ q ∧ q < p + n ∧ ∀ r, p ≤ r → r < q → bind r = false := by
  intro n
  induction n with
  | zero => intro p q h; simp [scan_ports] at h
  | succ n ih =>
    intro p q h
    rw [show scan_ports bind p (n + 1)
          = (if bind p then some p else scan_ports bind (p + 1) n) from rfl] at h
    by_cases hb : bind p
    · rw [if_pos hb] at h
      injection h with h1
      subst h1
      exact ⟨hb, Nat.le_refl _, by omega, fun r hr1 hr2 => by omega⟩
    · rw [if_neg hb] at h
      obtain ⟨hq, hle, hlt, hall⟩ := ih (p + 1) q h
      refine ⟨hq, by omega, by omega, ?_⟩
      intro r hr1 hr2
      by_cases hrp : r = p
      · subst hrp
        exact Bool.eq_false_iff.mpr hb
      · exact hall r (by omega) hr2

theorem scan_ports_none (bind : Nat → Bool) :
    ∀ (n p : Nat), scan_ports bind p n = none →
      ∀ r, p ≤ r → r < p + n → bind r = false := by
  intro n
  induction n with
  | zero => intro p _ r hr1 hr2; omega
  | succ n ih =>
    intro p h r hr1 hr2
    rw [show scan_ports bind p (n + 1)
          = (if bind p then some p else scan_ports bind (p + 1) n) from rfl] at h
    by_cases hb : bind p
    · rw [if_pos hb] at h; exact absurd h (by simp)
    · rw [if_neg hb] at h
      by_cases hrp : r = p
      · subst hrp
        exact Bool.eq_false_iff.mpr hb
      · exact ih (p + 1) h r (by omega) (by omega)

/-! ## Helper lemmas: exit handler, delivery, stop -/

theorem handle_exit_child (s : OpenCodeState) (c g : Option Int) :
    (handle_process_exit s c g).1.child = none := by
  unfold handle_process_exit
  split <;> rfl

theorem handle_exit_frame (s : OpenCodeState) (c g : Option Int) :
    (handle_process_exit s c g).1.port = s.port ∧
    (handle_process_exit s c g).1.mcp_port = s.mcp_port := by
  unfold handle_process_exit
  split <;> exact ⟨rfl, rfl⟩

theorem handle_exit_err (s : OpenCodeState) (c g : Option Int) (hc : c ≠ some 0) :
    (handle_process_exit s c g).1.status = .Error (exit_user_msg c g) := by
  unfold handle_process_exit
  rw [if_neg hc]

theorem handle_exit_status_cases (s : OpenCodeState) (c g : Option Int) :
    (handle_process_exit s c g).1.status = .Stopped ∨
    (handle_process_exit s c g).1.status = .Error (exit_user_msg c g) := by
  unfold handle_process_exit
  split
  · exact Or.inl rfl
  · exact Or.inr rfl

theorem handle_exit_not_running (s : OpenCodeState) (c g : Option Int) :
    (handle_process_exit s c g).1.status ≠ .Running := by
  rcases handle_exit_status_cases s c g with h | h <;> rw [h] <;> intro he <;> cases he

theorem deliverExit_cases (s : OpenCodeState) (ea : Option (Nat × Option Int × Option Int))
    (i : Nat) :
    (deliverExit s ea i).1 = s ∨
    ((deliverExit s ea i).1.child = none ∧ (deliverExit s ea i).1.status ≠ .Running) := by
  unfold deliverExit
  match ea with
  | none => exact Or.inl rfl
  | some (k, c, g) =>
    dsimp only
    by_cases h : k = i
    · rw [if_pos h]
      exact Or.inr ⟨handle_exit_child s c g, handle_exit_not_running s c g⟩
    · rw [if_neg h]
      exact Or.inl rfl

/-! ## Helper lemmas: health wait -/

theorem health_abort_not_ok (s1 : OpenCodeState) (pre : List StatusPayload) (msg : String)
    (p : Nat) : (health_abort s1 pre msg).result ≠ .ok p := by
  unfold health_abort
  split <;> simp

theorem health_abort_err (s1 : OpenCodeState) (pre : List StatusPayload) (msg m : String)
    (h : s1.status = .Error m) :
    health_abort s1 pre msg = ⟨.error m, s1, pre, 0, [s1]⟩ := by
  unfold health_abort
  rw [h]

theorem health_abort_trace_inv (s1 : OpenCodeState) (pre : List StatusPayload) (msg : String)
    (h : s1.status = .Running → s1.child = some ()) :
    ∀ t ∈ (health_abort s1 pre msg).trace, t.status = .Running → t.child = some () := by
  unfold health_abort
  split
  · intro t ht
    have ht2 : t = s1 := by simpa using ht
    subst ht2
    exact h
  · intro t ht
    have ht2 : t = s1 ∨ t = { s1 with status := .Error msg } := by simpa using ht
    rcases ht2 with rfl | rfl
    · exact h
    · intro hr
      exact absurd hr (by simp)

theorem health_running_result (s1 : OpenCodeState) (pre : List StatusPayload) (port : Nat)
    (le : Option (Option Int × Option Int)) :
    (health_running s1 pre port le).result = .ok port := by
  unfold health_running
  rcases le with _ | ⟨c, g⟩
  · rfl
  · rfl

theorem health_running_state (s1 : OpenCodeState) (pre : List StatusPayload) (port : Nat)
    (le : Option (Option Int × Option Int)) :
    (health_running s1 pre port le).state.status = .Running ∧
    (health_running s1 pre port le).state.port = s1.port ∧
    (health_running s1 pre port le).state.mcp_port = s1.mcp_port := by
  unfold health_running
  rcases le with _ | ⟨c, g⟩
  · exact ⟨rfl, rfl, rfl⟩
  · refine ⟨rfl, ?_, ?_⟩
    · show (handle_process_exit s1 c g).1.port = s1.port
      exact (handle_exit_frame s1 c g).1
    · show (handle_process_exit s1 c g).1.mcp_port = s1.mcp_port
      exact (handle_exit_frame s1 c g).2

theorem health_wait_zero (i : Nat) (s : OpenCodeState) (port : Nat)
    (ea : Option (Nat × Option Int × Option Int))
    (le : Option (Option Int × Option Int)) (hl : Nat → Bool) :
    health_wait 0 i s port ea le hl =
      health_abort (deliverExit s ea i).1 (deliverExit s ea i).2
        "OpenCode server started but health check timed out" := rfl

theorem health_wait_succ (n i : Nat) (s : OpenCodeState) (port : Nat)
    (ea : Option (Nat × Option Int × Option Int))
    (le : Option (Option Int × Option Int)) (hl : Nat → Bool) :
    health_wait (n + 1) i s port ea le hl =
      (if (deliverExit s ea i).1.child = none then
        health_abort (deliverExit s ea i).1 (deliverExit s ea i).2
          "OpenCode process exited before becoming healthy"
      else if hl i then
        health_running (deliverExit s ea i).1 (deliverExit s ea i).2 port le
      else
        ⟨(health_wait n (i + 1) (deliverExit s ea i).1 port ea le hl).result,
         (health_wait n (i + 1) (deliverExit s ea i).1 port ea le hl).state,
         (deliverExit s ea i).2 ++
           (health_wait n (i + 1) (deliverExit s ea i).1 port ea le hl).emits,
         (health_wait n (i + 1) (deliverExit s ea i).1 port ea le hl).polls + 1,
         (deliverExit s ea i).1 ::
           (health_wait n (i + 1) (deliverExit s ea i).1 port ea le hl).trace⟩) := rfl

theorem health_wait_ok (port : Nat) (ea : Option (Nat × Option Int × Option Int))
    (le : Option (Option Int × Option Int)) (hl : Nat → Bool) :
    ∀ (fuel i : Nat) (s : OpenCodeState) (p : Nat),
      (health_wait fuel i s port ea le hl).result = .ok p →
      p = port ∧
      (health_wait fuel i s port ea le hl).state.status = .Running ∧
      (health_wait fuel i s port ea le hl).state.port = s.port ∧
      (health_wait fuel i s port ea le hl).state.mcp_port = s.mcp_port := by
  intro fuel
  induction fuel with
  | zero =>
    intro i s p h
    rw [health_wait_zero] at h
    exact absurd h (health_abort_not_ok _ _ _ p)
  | succ n ih =>
    intro i s p h
    rw [health_wait_succ] at h ⊢
    rcases deliverExit_cases s ea i with hde | ⟨hch, _⟩
    · rw [hde] at h ⊢
      by_cases hc : s.child = none
      · rw [if_pos hc] at h
        exact absurd h (health_abort_not_ok _ _ _ p)
      · rw [if_neg hc] at h ⊢
        by_cases hh : hl i
        · rw [if_pos hh] at h ⊢
          rw [health_running_result] at h
          injection h with h3
          obtain ⟨hst, hpo, hmc⟩ := health_running_state s ((deliverExit s ea i).2) port le
          exact ⟨h3.symm, hst, hpo, hmc⟩
        · rw [if_neg hh] at h ⊢
          have h2 : (health_wait n (i + 1) s port ea le hl).result = .ok p := h
          obtain ⟨hp2, h1, hpo, hmc⟩ := ih (i + 1) s p h2
          exact ⟨hp2, h1, hpo, hmc⟩
    · rw [if_pos hch] at h
      exact absurd h (health_abort_not_ok _ _ _ p)

theorem health_wait_exit (port : Nat) (le : Option (Option Int × Option Int))
    (hl : Nat → Bool) (c g : Option Int) (k : Nat)
    (hc : c ≠ some 0) :
    ∀ (fuel i : Nat) (s : OpenCodeState), s.child = some () → i ≤ k → k < i + fuel →
      (∀ j, i ≤ j → j < k → hl j = false) →
      (health_wait fuel i s port (some (k, c, g)) le hl).result =
        .error (exit_user_msg c g) ∧
      (health_wait fuel i s port (some (k, c, g)) le hl).polls = k - i := by
  intro fuel
  induction fuel with
  | zero =>
    intro i s _ hik hkf _
    omega
  | succ n ih =>
    intro i s hch hik hkf hhl
    rw [health_wait_succ]
    by_cases hki : k = i
    · have hd1 : (deliverExit s (some (k, c, g)) i).1 = (handle_process_exit s c g).1 := by
        unfold deliverExit
        dsimp only
        rw [if_pos hki]
      have hd2 : (deliverExit s (some (k, c, g)) i).2 = [(handle_process_exit s c g).2] := by
        unfold deliverExit
        dsimp only
        rw [if_pos hki]
      rw [hd1, hd2]
      rw [if_pos (handle_exit_child s c g)]
      rw [health_abort_err _ _ _ _ (handle_exit_err s c g hc)]
      refine ⟨rfl, ?_⟩
      show (0 : Nat) = k - i
      omega
    · have hd1 : (deliverExit s (some (k, c, g)) i).1 = s := by
        unfold deliverExit
        dsimp only
        rw [if_neg hki]
      have hd2 : (deliverExit s (some (k, c, g)) i).2 = [] := by
        unfold deliverExit
        dsimp only
        rw [if_neg hki]
      rw [hd1, hd2]
      rw [if_neg (by simp [hch])]
      have hli : hl i = false := hhl i (by omega) (by omega)
      rw [if_neg (by simp [hli])]
      obtain ⟨h1, h2⟩ := ih (i + 1) s hch (by omega) (by omega)
        (fun j hj1 hj2 => hhl j (by omega) hj2)
      constructor
      · exact h1
      · show (health_wait n (i + 1) s port (some (k, c, g)) le hl).polls + 1 = k - i
        rw [h2]
        omega

theorem health_wait_trace_inv (port : Nat) (ea : Option (Nat × Option Int × Option Int))
    (hl : Nat → Bool) :
    ∀ (fuel i : Nat) (s : OpenCodeState),
      (s.status = .Running → s.child = some ()) →
      ∀ t ∈ (health_wait fuel i s port ea none hl).trace,
        t.status = .Running → t.child = some () := by
  intro fuel
  induction fuel with
  | zero =>
    intro i s hs t ht
    rw [health_wait_zero] at ht
    have hd1 : (deliverExit s ea i).1.status = .Running → (deliverExit s ea i).1.child = some () := by
      rcases deliverExit_cases s ea i with hde | ⟨_, hnr⟩
      · rw [hde]; exact hs
      · intro hr; exact absurd hr hnr
    exact health_abort_trace_inv _ _ _ hd1 t ht
  | succ n ih =>
    intro i s hs t ht
    rw [health_wait_succ] at ht
    have hd1 : (deliverExit s ea i).1.status = .Running → (deliverExit s ea i).1.child = some () := by
      rcases deliverExit_cases s ea i with hde | ⟨_, hnr⟩
      · rw [hde]; exact hs
      · intro hr; exact absurd hr hnr
    by_cases hc : (deliverExit s ea i).1.child = none
    · rw [if_pos hc] at ht
      exact health_abort_trace_inv _ _ _ hd1 t ht
    · rw [if_neg hc] at ht
      by_cases hh : hl i
      · rw [if_pos hh] at ht
        have ht2 : t = (deliverExit s ea i).1 ∨
            t = { (deliverExit s ea i).1 with status := .Running } := by
          simpa [health_running] using ht
        rcases ht2 with rfl | rfl
        · exact hd1
        · intro _
          show (deliverExit s ea i).1.child = some ()
          cases hcs : (deliverExit s ea i).1.child with
          | none => exact absurd hcs hc
          | some u => cases u; rfl
      · rw [if_neg hh] at ht
        have ht2 : t = (deliverExit s ea i).1 ∨
            t ∈ (health_wait n (i + 1) (deliverExit s ea i).1 port ea none hl).trace := by
          simpa using ht
        rcases ht2 with rfl | htm
        · exact hd1
        · exact ih (i + 1) (deliverExit s ea i).1 hd1 t htm

/-! ## Helper lemmas: do_start and start_opencode_server -/

theorem do_start_ok (s : OpenCodeState) (env : StartEnv) (p : Nat)
    (h : (do_start s env).result = .ok p) :
    (do_start s env).state.status = .Running ∧
    (do_start s env).state.port = find_available_port env.bind OC_PORT_START ∧
    (do_start s env).state.mcp_port = find_available_port env.bind MCP_PORT_START ∧
    p = find_available_port env.bind OC_PORT_START ∧
    (do_start s env).spawns = 1 := by
  unfold do_start at h ⊢
  rcases hPS : pre_spawn_checks env with e | u
  · rw [hPS] at h
    simp at h
  · rw [hPS] at h
    have h2 : (health_wait 15 0
        { s with port := find_available_port env.bind OC_PORT_START,
                 mcp_port := find_available_port env.bind MCP_PORT_START,
                 child := some () }
        (find_available_port env.bind OC_PORT_START) env.exitAt env.lateExit
        env.health).result = .ok p := h
    obtain ⟨hp, hst, hpo, hmc⟩ := health_wait_ok _ env.exitAt env.lateExit env.health 15 0 _ p h2
    exact ⟨hst, hpo, hmc, hp, rfl⟩

theorem start_guard (s : OpenCodeState) (env : StartEnv) (h : isActive s.status = true) :
    start_opencode_server s env = ⟨.ok s.port, s, [], 0, 0, [s]⟩ := by
  unfold start_opencode_server
  rw [if_pos h]

theorem start_ok (s : OpenCodeState) (env : StartEnv) (p : Nat)
    (h : (start_opencode_server s env).result = .ok p) :
    (start_opencode_server s env).state.port = p ∧
    isActive (start_opencode_server s env).state.status = true ∧
    (start_opencode_server s env).spawns ≤ 1 ∧
    (isActive s.status = false → (start_opencode_server s env).spawns = 1) := by
  simp only [start_opencode_server] at h ⊢
  by_cases hA : isActive s.status
  · rw [if_pos hA] at h ⊢
    have h2 : Except.ok s.port = Except.ok p := h
    injection h2 with h3
    refine ⟨h3, hA, ?_, fun hf => ?_⟩
    · show (0 : Nat) ≤ 1
      decide
    · rw [hf] at hA
      exact (Bool.false_ne_true hA).elim
  · rw [if_neg hA] at h ⊢
    rcases hN : env.nodejs with e | u
    · rw [hN] at h
      simp at h
    · rw [hN] at h
      rcases hR : (do_start { s with status := .Starting } env).result with e | q
      · rw [hR] at h
        simp at h
      · rw [hR] at h
        have h2 : Except.ok q = Except.ok p := h
        injection h2 with h3
        subst h3
        obtain ⟨hst, hpo, hmc, hp, hsp⟩ := do_start_ok { s with status := .Starting } env q hR
        refine ⟨?_, ?_, ?_, fun _ => ?_⟩
        · show (do_start { s with status := .Starting } env).state.port = q
          rw [hpo]
          exact hp.symm
        · show isActive (do_start { s with status := .Starting } env).state.status = true
          rw [hst]
          rfl
        · show (do_start { s with status := .Starting } env).spawns ≤ 1
          rw [hsp]
        · show (do_start { s with status := .Starting } env).spawns = 1
          exact hsp

theorem do_start_trace_inv (s : OpenCodeState) (env : StartEnv)
    (hs : s.status = .Running → s.child = some ())
    (hle : env.lateExit = none) :
    ∀ t ∈ (do_start s env).trace, t.status = .Running → t.child = some () := by
  simp only [do_start]
  rw [hle]
  generalize find_available_port env.bind OC_PORT_START = P
  generalize find_available_port env.bind MCP_PORT_START = M
  rcases hPS : pre_spawn_checks env with e | u
  · intro t ht
    have ht2 : t = { s with port := P, mcp_port := M } := by simpa using ht
    subst ht2
    exact hs
  · intro t ht
    have ht2 : t = { s with port := P, mcp_port := M } ∨
        t = { s with port := P, mcp_port := M, child := some () } ∨
        t ∈ (health_wait 15 0 { s with port := P, mcp_port := M, child := some () }
              P env.exitAt none env.health).trace := by
      simpa using ht
    rcases ht2 with rfl | rfl | htm
    · exact hs
    · intro _
      rfl
    · exact health_wait_trace_inv P env.exitAt env.health 15 0 _ (fun _ => rfl) t htm

theorem start_trace_inv (s : OpenCodeState) (env : StartEnv)
    (hs : s.status = .Running → s.child = some ())
    (hle : env.lateExit = none) :
    ∀ t ∈ (start_opencode_server s env).trace, t.status = .Running → t.child = some () := by
  simp only [start_opencode_server]
  by_cases hA : isActive s.status
  · rw [if_pos hA]
    intro t ht
    have ht2 : t = s := by simpa using ht
    subst ht2
    exact hs
  · rw [if_neg hA]
    rcases hN : env.nodejs with e | u
    · intro t ht
      have ht2 : t = { s with status := .Error e } := by simpa using ht
      subst ht2
      intro hr
      exact absurd hr (by simp)
    · have hsS : ({ s with status := .Starting } : OpenCodeState).status = .Running →
          ({ s with status := .Starting } : OpenCodeState).child = some () := by
        intro hr
        exact absurd hr (by simp)
      have hin := do_start_trace_inv { s with status := .Starting } env hsS hle
      generalize hO : do_start { s with status := .Starting } env = O at hin ⊢
      rcases hR : O.result with e | q
      · intro t ht
        have ht2 : t = { s with status := .Starting } ∨ t ∈ O.trace ∨
            t = { O.state with status := .Error e } := by
          simpa using ht
        rcases ht2 with rfl | htm | rfl
        · exact hsS
        · exact hin t htm
        · intro hr
          exact absurd hr (by simp)
      · intro t ht
        have ht2 : t = { s with status := .Starting } ∨ t ∈ O.trace := by
          simpa using ht
        rcases ht2 with rfl | htm
        · exact hsS
        · exact hin t htm

theorem stop_all_state_cases (s : OpenCodeState) (b : Bool) :
    (stop_all s b).state = s ∨ (stop_all s b).state.status = .Stopped := by
  simp only [stop_all]
  split
  · exact Or.inl rfl
  · exact Or.inr rfl

/-! ## Claim theorems -/

/-- Claim C4 (counterexample): find_available_port does not always return
the first bindable port of the mathematical band from base to base plus
size.  With base 65530 and the fixed band size 10, port 65535 lies in
that band and is bindable, yet the saturating u16 arithmetic of the
source stops the probe loop before 65535, so the allocator falls back to
returning the base 65530, which is not the bindable port. -/
theorem claim_C4_counterexample :
    find_available_port (fun p => decide (p = 65535)) 65530 = 65530 ∧
    (fun p => decide (p = 65535)) 65535 = true ∧
    65530 ≤ 65535 ∧ 65535 < 65530 + PORT_RANGE ∧
    (65530 : Nat) ≠ 65535 := by decide

/-- Claim C4 (amended): for every base at most 65535, find_available_port
probes the ports of the truncated band from base up to, exclusively, the
minimum of base plus PORT_RANGE and 65535, in ascending order, and
returns the first for which the bind oracle succeeds, skipping every
pre-bound port; when no probed port can be bound it returns base
unchanged. -/
theorem claim_C4_amended : ∀ (bind : Nat → Bool) (start : Nat), start ≤ 65535 →
    ((∀ r, start ≤ r → r < min (start + PORT_RANGE) 65535 → bind r = false) →
      find_available_port bind start = start) ∧
    (∀ q, start ≤ q → q < min (start + PORT_RANGE) 65535 → bind q = true →
      bind (find_available_port bind start) = true ∧
      start ≤ find_available_port bind start ∧
      find_available_port bind start ≤ q ∧
      ∀ r, start ≤ r → r < find_available_port bind start → bind r = false) := by
  intro bind start hstart
  have hn : start + (min (start + PORT_RANGE) 65535 - start) = min (start + PORT_RANGE) 65535 := by
    omega
  unfold find_available_port
  rcases hs : scan_ports bind start (min (start + PORT_RANGE) 65535 - start) with _ | p
  · constructor
    · intro _
      rfl
    · intro q hq1 hq2 hbq
      have hf := scan_ports_none bind _ start hs q hq1 (by omega)
      rw [hf] at hbq
      exact (Bool.false_ne_true hbq).elim
  · obtain ⟨hb, hle, hlt, hall⟩ := scan_ports_some bind _ start p hs
    constructor
    · intro hnone
      have hf := hnone p hle (by omega)
      rw [hf] at hb
      exact (Bool.false_ne_true hb).elim
    · intro q hq1 hq2 hbq
      refine ⟨hb, hle, ?_, hall⟩
      by_contra hqp
      push_neg at hqp
      have hf := hall q hq1 hqp
      rw [hf] at hbq
      exact (Bool.false_ne_true hbq).elim

/-- Claim C4 (witness of the amended theorem): with ports 59200-59202
pre-bound and 59203 free, the allocator returns a bindable port that is
at least the base and at most 59203. -/
theorem claim_C4_amended_witness :
    (fun p => decide (59203 ≤ p)) (find_available_port (fun p => decide (59203 ≤ p)) 59200)
      = true ∧
    59200 ≤ find_available_port (fun p => decide (59203 ≤ p)) 59200 ∧
    find_available_port (fun p => decide (59203 ≤ p)) 59200 ≤ 59203 := by
  have h := (claim_C4_amended (fun p => decide (59203 ≤ p)) 59200 (by decide)).2
    59203 (by decide) (by decide) (by decide)
  exact ⟨h.1, h.2.1, h.2.2.1⟩

/-- Claim C6: on process termination the handler clears the child handle
unconditionally; an exit code of 0 gives status Stopped; a nonzero exit
code gives status Error with a message containing that code; when there
is no exit code and a terminating signal is present, the status is Error
with a message containing that signal. -/
theorem claim_C6 : ∀ (s : OpenCodeState) (c g : Option Int),
    (handle_process_exit s c g).1.child = none ∧
    (c = some 0 → (handle_process_exit s c g).1.status = .Stopped) ∧
    (∀ k : Int, c = some k → k ≠ 0 →
      ∃ pre post, (handle_process_exit s c g).1.status =
        .Error (pre ++ (toString k ++ post))) ∧
    (c = none → ∀ k : Int, g = some k →
      ∃ pre post, (handle_process_exit s c g).1.status =
        .Error (pre ++ (toString k ++ post))) := by
  intro s c g
  refine ⟨handle_exit_child s c g, ?_, ?_, ?_⟩
  · intro h0
    unfold handle_process_exit
    rw [if_pos h0]
  · intro k hk hk0
    subst hk
    have hne : (some k : Option Int) ≠ some 0 := by
      intro he
      injection he with he2
      exact hk0 he2
    refine ⟨"The server exited unexpectedly (code ", ").", ?_⟩
    rw [handle_exit_err s (some k) g hne]
    rfl
  · intro hc k hg
    subst hc
    subst hg
    have hne : (none : Option Int) ≠ some 0 := by
      intro he
      cases he
    refine ⟨"The server was terminated by signal ", ".", ?_⟩
    rw [handle_exit_err s none (some k) hne]
    rfl

/-- Claim C6 (witness): a crash with exit code 137 clears the handle and
yields an Error status whose message contains 137. -/
theorem claim_C6_witness :
    (handle_process_exit ⟨.Running, 59200, 59210, some ()⟩ (some 137) none).1.child = none ∧
    ∃ pre post,
      (handle_process_exit ⟨.Running, 59200, 59210, some ()⟩ (some 137) none).1.status =
        .Error (pre ++ (toString (137 : Int) ++ post)) := by
  have h := claim_C6 ⟨.Running, 59200, 59210, some ()⟩ (some 137) none
  exact ⟨h.1, h.2.2.1 137 rfl (by decide)⟩

/-- Claim C10: the exit handler changes only the child handle and the
status; the primary and helper ports are left untouched, and the emitted
event carries the old primary port together with the new status. -/
theorem claim_C10 : ∀ (s : OpenCodeState) (c g : Option Int),
    (handle_process_exit s c g).1.port = s.port ∧
    (handle_process_exit s c g).1.mcp_port = s.mcp_port ∧
    (handle_process_exit s c g).2.port = s.port ∧
    (handle_process_exit s c g).2.status = (handle_process_exit s c g).1.status := by
  intro s c g
  unfold handle_process_exit
  split <;> exact ⟨rfl, rfl, rfl, rfl⟩

/-- Claim C9: whenever the supervisor status is not Running, the combined
status poller returns unknown with no error and performs no HTTP request;
in particular, after an unexpected exit handled by the exit handler with
a nonzero code, a poll returns unknown. -/
theorem claim_C9 :
    (∀ (s : OpenCodeState) (env : PollEnv), s.status ≠ .Running →
      poll_studio_status s env = (.ok ⟨"unknown", none⟩, 0)) ∧
    (∀ (s : OpenCodeState) (c g : Option Int) (env : PollEnv), c ≠ some 0 →
      poll_studio_status (handle_process_exit s c g).1 env = (.ok ⟨"unknown", none⟩, 0)) := by
  constructor
  · intro s env h
    unfold poll_studio_status
    rw [if_neg h]
  · intro s c g env hc
    have hst := handle_exit_err s c g hc
    unfold poll_studio_status
    rw [if_neg (by simp [hst])]

/-- Claim C9 (witness): a poll from the initial Stopped state returns
unknown without issuing any HTTP request, even though both endpoints
would fail if contacted. -/
theorem claim_C9_witness :
    poll_studio_status ⟨.Stopped, 0, 0, none⟩
      ⟨.ok (), .netErr "refused", .netErr "refused"⟩ = (.ok ⟨"unknown", none⟩, 0) :=
  claim_C9.1 ⟨.Stopped, 0, 0, none⟩ ⟨.ok (), .netErr "refused", .netErr "refused"⟩
    (by decide)

/-- Claim C1 (counterexample): stop_all does not always leave status
Stopped.  The state reached when the Node.js runtime resolution fails
during start has status Error, ports 0 and no child; stop_all invoked
there takes the early return and leaves the Error status in place. -/
theorem claim_C1_counterexample :
    Reach ⟨.Error "Failed to find Node.js runtime", 0, 0, none⟩ ∧
    (stop_all ⟨.Error "Failed to find Node.js runtime", 0, 0, none⟩ true).state =
      ⟨.Error "Failed to find Node.js runtime", 0, 0, none⟩ ∧
    (⟨.Error "Failed to find Node.js runtime", 0, 0, none⟩ : OpenCodeState).status ≠
      .Stopped := by
  refine ⟨Reach.start_step initialState envNodejsFail _ Reach.init (by decide),
    by decide, by decide⟩

/-- Claim C1 (amended): whenever stop_all is invoked on a state holding a
child handle or a nonzero helper port, it finishes with status Stopped,
both ports zeroed and the handle cleared, regardless of whether the
shutdown request to the helper control endpoint succeeds; when no child
is present and the helper port is 0, stop_all returns immediately with
the state unchanged. -/
theorem claim_C1_amended : ∀ (s : OpenCodeState) (b : Bool),
    s.child = some () ∨ s.mcp_port ≠ 0 →
    (stop_all s b).state.status = .Stopped ∧ (stop_all s b).state.port = 0 ∧
    (stop_all s b).state.mcp_port = 0 ∧ (stop_all s b).state.child = none := by
  intro s b h
  have hcond : ¬(s.child = none ∧ s.mcp_port = 0) := by
    rcases h with h | h
    · intro hc
      rw [h] at hc
      simp at hc
    · intro hc
      exact h hc.2
  simp [stop_all, hcond]

/-- Claim C1 (witness of the amended theorem): stopping a Running state
whose helper shutdown endpoint is unreachable still yields Stopped with
both ports zeroed. -/
theorem claim_C1_amended_witness :
    (stop_all ⟨.Running, 59200, 59210, some ()⟩ false).state.status = .Stopped ∧
    (stop_all ⟨.Running, 59200, 59210, some ()⟩ false).state.port = 0 ∧
    (stop_all ⟨.Running, 59200, 59210, some ()⟩ false).state.mcp_port = 0 := by
  have h := claim_C1_amended ⟨.Running, 59200, 59210, some ()⟩ false (Or.inl rfl)
  exact ⟨h.1, h.2.1, h.2.2.1⟩

/-- Claim C2 (counterexample): the state with status Starting and no
child handle is reachable — start_opencode_server publishes the Starting
transition before the spawn stores the handle, so the invariant that a
Starting status implies a present process handle fails on the code. -/
theorem claim_C2_counterexample :
    Reach ⟨.Starting, 0, 0, none⟩ ∧
    (⟨.Starting, 0, 0, none⟩ : OpenCodeState).status = .Starting ∧
    (⟨.Starting, 0, 0, none⟩ : OpenCodeState).child = none :=
  ⟨Reach.start_step initialState envAllOk _ Reach.init (by decide), rfl, rfl⟩

/-- Claim C2 (amended): in every reachable supervisor state, a Running
status implies the process handle is present, except when the process
terminated in the window between the final successful health poll and
the Running status write — the exit handler then clears the handle and
the subsequent Running write leaves a reachable Running state with no
handle; a Starting status may hold with no handle (the Starting
transition precedes the spawn), and an Error status carries no guarantee
about the handle.  The first part is the invariant over every run
without that late delivery; the second part shows the excepted Running
state with no handle really is reachable in the full model. -/
theorem claim_C2_amended :
    (∀ s : OpenCodeState, ReachNoLateExit s →
      s.status = .Running → s.child = some ()) ∧
    Reach ⟨.Running, 59200, 59210, none⟩ := by
  constructor
  · intro s h
    induction h with
    | init =>
      intro hr
      exact absurd hr (by simp [initialState])
    | start_step s0 env t hr hle ht ih => exact start_trace_inv s0 env ih hle t ht
    | exit_step s0 c g hr ih =>
      intro hr2
      exact absurd hr2 (handle_exit_not_running s0 c g)
    | stop_step s0 b hr ih =>
      rcases stop_all_state_cases s0 b with he | hst
      · rw [he]
        exact ih
      · intro hr2
        have hx : OpenCodeStatus.Stopped = .Running := hst.symm.trans hr2
        exact absurd hx (by simp)
  · exact Reach.start_step initialState envLateExit _ Reach.init (by decide)

/-- Claim C2 (witness of the amended theorem): the Running state produced
by a fully successful start with no late exit delivery is reachable, and
the amended invariant yields its child handle. -/
theorem claim_C2_amended_witness :
    (⟨.Running, 59200, 59210, some ()⟩ : OpenCodeState).child = some () :=
  claim_C2_amended.1 ⟨.Running, 59200, 59210, some ()⟩
    (ReachNoLateExit.start_step initialState envAllOk _ ReachNoLateExit.init rfl
      (by decide)) rfl

/-- Claim C5: a start call made while the status is Starting or Running
returns Ok with the stored port, mutates nothing, emits nothing and
spawns nothing; consequently, when a start call returns Ok, an
immediately following start call returns the same port without spawning,
and a successful start from the Stopped state spawns exactly one
process. -/
theorem claim_C5 (s : OpenCodeState) (env env2 : StartEnv) :
    ((s.status = .Starting ∨ s.status = .Running) →
      start_opencode_server s env = ⟨.ok s.port, s, [], 0, 0, [s]⟩) ∧
    (∀ p : Nat, (start_opencode_server s env).result = .ok p →
      start_opencode_server (start_opencode_server s env).state env2 =
        ⟨.ok p, (start_opencode_server s env).state, [], 0, 0,
          [(start_opencode_server s env).state]⟩ ∧
      (start_opencode_server s env).spawns ≤ 1 ∧
      (s.status = .Stopped → (start_opencode_server s env).spawns = 1)) := by
  constructor
  · intro hSR
    apply start_guard
    rcases hSR with h | h <;> rw [h] <;> rfl
  · intro p h
    obtain ⟨hport, hact, hle, hsp⟩ := start_ok s env p h
    refine ⟨?_, hle, fun hst => hsp (by rw [hst]; rfl)⟩
    have hg := start_guard (start_opencode_server s env).state env2 hact
    rw [hg, hport]

/-- Claim C5 (witness): after a fully successful start from the initial
state, a second start call returns the same port 59200 with no state
change and no further spawn, and the first call spawned exactly once. -/
theorem claim_C5_witness :
    start_opencode_server (start_opencode_server initialState envAllOk).state envAllOk =
      ⟨.ok 59200, (start_opencode_server initialState envAllOk).state, [], 0, 0,
        [(start_opencode_server initialState envAllOk).state]⟩ ∧
    (start_opencode_server initialState envAllOk).spawns = 1 := by
  have h := (claim_C5 initialState envAllOk envAllOk).2 59200 (by decide)
  exact ⟨h.1, h.2.2 rfl⟩

/-- Claim C7: when the spawned process dies before becoming healthy — the
exit event landing before the child check of loop iteration k, with every
earlier health poll failing — the health prober aborts at that very
iteration: the start call returns the error recorded by the exit handler,
exactly k health polls were sent, and the 15-poll budget is never
exhausted. -/
theorem claim_C7 (s : OpenCodeState) (env : StartEnv) (k : Nat) (c g : Option Int)
    (hA : isActive s.status = false)
    (hN : env.nodejs = .ok ())
    (hPS : pre_spawn_checks env = .ok ())
    (hE : env.exitAt = some (k, c, g))
    (hk : k < 15)
    (hh : ∀ j, j < k → env.health j = false)
    (hc : c ≠ some 0) :
    (start_opencode_server s env).result = .error (exit_user_msg c g) ∧
    (start_opencode_server s env).polls = k ∧
    (start_opencode_server s env).polls < 15 := by
  have h1 : (do_start { s with status := .Starting } env).result =
      (health_wait 15 0
        { s with status := .Starting,
                 port := find_available_port env.bind OC_PORT_START,
                 mcp_port := find_available_port env.bind MCP_PORT_START,
                 child := some () }
        (find_available_port env.bind OC_PORT_START) env.exitAt env.lateExit
        env.health).result := by
    unfold do_start
    rw [hPS]
  have h2 : (do_start { s with status := .Starting } env).polls =
      (health_wait 15 0
        { s with status := .Starting,
                 port := find_available_port env.bind OC_PORT_START,
                 mcp_port := find_available_port env.bind MCP_PORT_START,
                 child := some () }
        (find_available_port env.bind OC_PORT_START) env.exitAt env.lateExit
        env.health).polls := by
    unfold do_start
    rw [hPS]
  obtain ⟨hres, hpolls⟩ := health_wait_exit (find_available_port env.bind OC_PORT_START)
    env.lateExit env.health c g k hc 15 0
    { s with status := .Starting,
             port := find_available_port env.bind OC_PORT_START,
             mcp_port := find_available_port env.bind MCP_PORT_START,
             child := some () }
    rfl (by omega) (by omega) (fun j hj1 hj2 => hh j hj2)
  have hDres : (do_start { s with status := .Starting } env).result =
      .error (exit_user_msg c g) := by
    rw [h1, hE]
    exact hres
  have hDpolls : (do_start { s with status := .Starting } env).polls = k := by
    rw [h2, hE, hpolls]
    omega
  have hSpolls : (start_opencode_server s env).polls = k := by
    simp only [start_opencode_server]
    rw [if_neg (by simp [hA]), hN, hDres]
    exact hDpolls
  refine ⟨?_, hSpolls, by rw [hSpolls]; exact hk⟩
  simp only [start_opencode_server]
  rw [if_neg (by simp [hA]), hN, hDres]

/-- Claim C7 (witness): a crash with exit code 1 delivered before the
check of iteration 2 makes start return the handler error after exactly 2
health polls, well below the 15-poll budget. -/
theorem claim_C7_witness :
    (start_opencode_server initialState envCrash).result =
      .error (exit_user_msg (some 1) none) ∧
    (start_opencode_server initialState envCrash).polls = 2 ∧
    (start_opencode_server initialState envCrash).polls < 15 :=
  claim_C7 initialState envCrash 2 (some 1) none rfl rfl rfl rfl (by decide)
    (fun j hj => rfl) (by decide)

/-- Claim C3 (counterexample): the multiplexer does not forward every
output line at the severity named by its leading token.  The stdout line
ERROR boom carries the ERROR token, yet the stdout arm of process_events
forwards it at info. -/
theorem claim_C3_counterexample :
    stdout_line_action "ERROR boom" = .log "opencode::stdout" .info "ERROR boom" ∧
    spec_token_severity "ERROR boom" = .error ∧
    LogLevel.info ≠ LogLevel.error := by decide

/-- Claim C3 (amended): the token-based severity applies only to stderr:
every stderr line that is nonempty after trailing-whitespace trimming and
matches no noise pattern is forwarded at the severity named by the token
at its (whitespace-trimmed) start, ERROR/WARN/INFO/DEBUG with WARN as the
default for unstructured lines; stderr lines empty after trimming are
dropped, and stdout lines are forwarded at info, demoted to trace when
noisy, regardless of any token. -/
theorem claim_C3_amended : ∀ line : String,
    ((trimEndStr line).data.isEmpty = false →
      is_noisy_sidecar_line (trimEndStr line) = false →
      stderr_line_action line =
        .log "opencode::stderr" (spec_token_severity (trimEndStr line)) (trimEndStr line)) ∧
    ((trimEndStr line).data.isEmpty = true → stderr_line_action line = .skip) ∧
    stdout_line_action line =
      .log "opencode::stdout"
        (if is_noisy_sidecar_line (trimEndStr line) then .trace else .info)
        (trimEndStr line) := by
  intro line
  refine ⟨?_, ?_, ?_⟩
  · intro hne hnn
    simp only [stderr_line_action, hne, hnn, Bool.false_eq_true, if_false]
    rw [parse_level_eq_spec]
  · intro he
    simp [stderr_line_action, he]
  · by_cases hn : is_noisy_sidecar_line (trimEndStr line) <;> simp [stdout_line_action, hn]

/-- Claim C3 (witness of the amended theorem): the stderr line WARN disk
low is forwarded at the warn severity its token names. -/
theorem claim_C3_amended_witness :
    stderr_line_action "WARN disk low" =
      .log "opencode::stderr" (spec_token_severity (trimEndStr "WARN disk low"))
        (trimEndStr "WARN disk low") ∧
    spec_token_severity (trimEndStr "WARN disk low") = .warn :=
  ⟨(claim_C3_amended "WARN disk low").1 (by decide) (by decide), by decide⟩

/-- Claim C8: every output line containing a noise pattern is emitted at
trace, on stdout and on stderr, regardless of any embedded severity
token. -/
theorem claim_C8 : ∀ line : String, is_noisy_sidecar_line line = true →
    stdout_line_action line = .log "opencode::stdout" .trace (trimEndStr line) ∧
    stderr_line_action line = .log "opencode::stderr" .trace (trimEndStr line) := by
  intro line h
  have hnoisy := noisy_trimEnd line h
  have hne := noisy_nonempty (trimEndStr line) hnoisy
  constructor
  · simp [stdout_line_action, hnoisy]
  · simp [stderr_line_action, hne, hnoisy]

/-- Claim C8 (witness): a line matching the bus-chatter noise pattern is
demoted to trace on both streams even though it starts with the ERROR
token. -/
theorem claim_C8_witness :
    stdout_line_action "ERROR service=bus type=x" =
      .log "opencode::stdout" .trace (trimEndStr "ERROR service=bus type=x") ∧
    stderr_line_action "ERROR service=bus type=x" =
      .log "opencode::stderr" .trace (trimEndStr "ERROR service=bus type=x") ∧
    spec_token_severity "ERROR service=bus type=x" = .error :=
  ⟨(claim_C8 "ERROR service=bus type=x" (by decide)).1,
   (claim_C8 "ERROR service=bus type=x" (by decide)).2, by decide⟩
